import Mathlib

/-!
# Verification of the `kek` network-discovery scripts

Shallow embedding of the orchestration logic of `Subnethostfinder.py` and
`getserviceforall.py`:

* IPv4 networks are modelled as pairs `(base, prefixLen) : Nat × Nat`, where
  `base` is the 32-bit numeric network address (host bits clear) and
  `prefixLen` the prefix length.  The dotted string form used by the scripts
  is in bijection with this representation for the networks that occur.
* Python strings are modelled by Lean `String`; the handful of Python string
  methods the scripts use (`split`, `replace`, `strip`, `in`) are implemented
  here as structurally recursive functions on `String.data` so that every
  definition evaluates inside the kernel.
* The thread pool's nondeterminism is modelled by quantifying over the order
  in which submitted units complete; file side effects (the progress file and
  the appended nmap output file) are modelled as explicit values.
-/

deriving instance DecidableEq for Except

namespace Kek

/-- A scan unit / network: numeric base address paired with prefix length,
mirroring `ipaddress.IPv4Network`. -/
abbrev Net := Nat × Nat

/-- Strict comparison of `ipaddress.IPv4Network` values (`__lt__`): compare
network addresses, then netmasks (equal prefix length ↔ equal netmask). -/
def ipLt (a b : Net) : Prop := a.1 < b.1 ∨ (a.1 = b.1 ∧ a.2 < b.2)

instance : DecidableRel ipLt := fun a b => by unfold ipLt; infer_instance

/-- Boolean form of `ipLt`, used where the script branches on `<`. -/
def ipLtb (a b : Net) : Bool := decide (ipLt a b)

/-- Reflexive closure of `ipLt`. -/
def ipLe (a b : Net) : Prop := ipLt a b ∨ a = b

instance : DecidableRel ipLe := fun a b => by unfold ipLe; infer_instance

/-- `network.subnets(new_prefix=p)` from Python `ipaddress`: enumerate the
`2 ^ (p - prefixLen)` subnets of prefix length `p` in ascending order of
network address. -/
def subnetsOf (net : Net) (p : Nat) : List Net :=
  (List.range (2 ^ (p - net.2))).map (fun i => (net.1 + i * 2 ^ (32 - p), p))

/-- `ipaddress.ip_network("10.0.0.0/8")`, the base range of `scan_networks`. -/
def base_network : Net := (10 * 2 ^ 24, 8)

/-- The /24 scan units exactly as `scan_networks` enumerates them: the /16
subnets of `10.0.0.0/8`, each expanded into its /24 subnets. -/
def twoLevelUnits : List Net :=
  (subnetsOf base_network 16).flatMap (fun s16 => subnetsOf s16 24)

/-- Partitioning `10.0.0.0/8` directly into /24 units in a single level. -/
def singleLevelUnits : List Net := subnetsOf base_network 24

/-- Membership of an address in a network: `a ∈ (b, p)` iff
`b ≤ a < b + 2^(32-p)` (host bits of the base are clear for all networks the
scripts construct). -/
def containsAddr (u : Net) (a : Nat) : Prop := u.1 ≤ a ∧ a < u.1 + 2 ^ (32 - u.2)

instance (u : Net) (a : Nat) : Decidable (containsAddr u a) := by
  unfold containsAddr; infer_instance

/-- The loop body filter of `scan_networks` (lines 84–90): every /24 unit of
every /16 subnet is submitted unless a stored start network exists and the
unit compares strictly below it (`subnet_24 < start_network` → `continue`). -/
def submittedUnits (start : Option Net) : List Net :=
  (subnetsOf base_network 16).flatMap (fun s16 =>
    (subnetsOf s16 24).filter (fun u =>
      match start with
      | some s => !(ipLtb u s)
      | none => true))

/-! ## Python string primitives (kernel-computable) -/

/-- Fuel-driven core of Python `str.split(sep)` for a non-empty separator:
non-overlapping, left-to-right.  `fuel ≥ length of the remaining input`
guarantees the fuel never runs out. -/
def splitCore (pat : List Char) : Nat → List Char → List Char → List (List Char)
  | 0, _, acc => [acc.reverse]
  | _ + 1, [], acc => [acc.reverse]
  | fuel + 1, c :: rest, acc =>
    if pat.isPrefixOf (c :: rest) then
      acc.reverse :: splitCore pat fuel (List.drop (pat.length - 1) rest) []
    else
      splitCore pat fuel rest (c :: acc)

/-- Python `s.split(sep)` for a non-empty separator `pat`. -/
def pySplit (s pat : String) : List String :=
  if pat.data.isEmpty then [s]
  else (splitCore pat.data s.data.length s.data []).map fun l => ⟨l⟩

/-- Python `pat in s` (substring containment, `sep` non-empty). -/
def pyContains (s pat : String) : Bool :=
  2 ≤ (pySplit s pat).length

/-- Python `s.replace(pat, rep)` for a non-empty `pat`: equivalently, join
the split pieces with the replacement. -/
def pyReplace (s pat rep : String) : String :=
  ⟨List.intercalate rep.data ((pySplit s pat).map String.data)⟩

/-- The whitespace set of Python `str.strip()`. -/
def pySpace (c : Char) : Bool :=
  c = ' ' || c = '\t' || c = '\n' || c = '\x0d' || c = '\x0b' || c = '\x0c'

/-- Python `s.strip()`. -/
def pyStrip (s : String) : String :=
  ⟨((s.data.dropWhile pySpace).reverse.dropWhile pySpace).reverse⟩

/-- Python `s.strip(c)` for a single-character argument. -/
def pyStripChar (s : String) (c : Char) : String :=
  ⟨((s.data.dropWhile (· = c)).reverse.dropWhile (· = c)).reverse⟩

/-- Numeric value of a digit string (caller checks the digits). -/
def digitsVal (l : List Char) : Nat :=
  l.foldl (fun n c => n * 10 + (c.toNat - 48)) 0

/-- Python `int(s)` restricted to the plain non-negative decimal forms the
scripts feed it: optional surrounding behaviour is not needed, a string of
one or more ASCII digits parses, everything else raises (`none`). -/
def pyInt (s : String) : Option Nat :=
  if s.data ≠ [] && s.data.all Char.isDigit then some (digitsVal s.data) else none

/-- One octet of a dotted-quad per `ipaddress`: 1–3 ASCII digits, no leading
zero (except "0" itself), value ≤ 255. -/
def parseOctet (s : String) : Option Nat :=
  if s.data ≠ [] && s.data.all Char.isDigit && s.data.length ≤ 3 &&
      !(s.data.length > 1 && s.data.headD 'x' = '0') && digitsVal s.data ≤ 255 then
    some (digitsVal s.data)
  else none

/-- `ipaddress.IPv4Address(s)`: dotted quad to its 32-bit numeric value. -/
def parseIPv4 (s : String) : Option Nat :=
  match (pySplit s ".").map parseOctet with
  | [some a, some b, some c, some d] => some (((a * 256 + b) * 256 + c) * 256 + d)
  | _ => none

/-- Decimal rendering of a natural number (fuel-driven). -/
def natDigits : Nat → Nat → List Char
  | 0, _ => []
  | fuel + 1, n =>
    if n < 10 then [Char.ofNat (48 + n)]
    else natDigits fuel (n / 10) ++ [Char.ofNat (48 + n % 10)]

/-- `str(n)` for a natural number. -/
def natStr (n : Nat) : String := ⟨natDigits (n + 1) n⟩

/-- `str(net)` for a network value: dotted quad of the base address followed
by `/prefixLen`, as `ipaddress` prints it. -/
def netStr (u : Net) : String :=
  natStr (u.1 / 2 ^ 24) ++ "." ++ natStr (u.1 / 2 ^ 16 % 256) ++ "." ++
    natStr (u.1 / 2 ^ 8 % 256) ++ "." ++ natStr (u.1 % 256) ++ "/" ++ natStr u.2

/-- `ipaddress.ip_network(s)` with the default `strict=True`: either a bare
dotted-quad address (prefix 32) or `addr/prefixLen` with `prefixLen ≤ 32` and
all host bits clear; anything else raises `ValueError` (`none`). -/
def parse_ip_network (s : String) : Option Net :=
  match pySplit s "/" with
  | [a] => (parseIPv4 a).map fun ip => (ip, 32)
  | [a, p] =>
    match parseIPv4 a, pyInt p with
    | some ip, some pl =>
      if pl ≤ 32 ∧ ip % 2 ^ (32 - pl) = 0 then some (ip, pl) else none
    | _, _ => none
  | _ => none

/-! ## `parse_nmap_output` (Subnethostfinder.py lines 32–63) -/

/-- One iteration of the parsing loop: lines containing
`"Nmap scan report for"` yield an observation `(subnet base, host string)`;
the subnet is the /24 derived from the parsed IP (`IPv4Network(ip/24,
strict=False)`, i.e. the low 8 bits cleared); an unparsable IP is skipped
(`except: continue`).  Subnets are carried as numeric /24 bases; the string
key `str(...)` used by the script is in bijection with that base. -/
def lineObs (line : String) : Option (Nat × String) :=
  if pyContains line "Nmap scan report for" then
    let host := pyStrip (pyReplace line "Nmap scan report for " "")
    let ip := if pyContains host "(" then pyStripChar ((pySplit host "(").getLastD "") ')'
              else host
    match parseIPv4 ip with
    | some a => some (a / 2 ^ 8 * 2 ^ 8, host)
    | none => none
  else none

/-- All observations parsed from the nmap output file, in file order. -/
def observations (lines : List String) : List (Nat × String) :=
  lines.filterMap lineObs

/-- `active_hosts[subnet]`: the hosts recorded under one subnet key, in
append order (each observed-live event appends, duplicates kept). -/
def subnetHosts (lines : List String) (s : Nat) : List String :=
  (observations lines).filterMap (fun o => if o.1 = s then some o.2 else none)

/-- First-occurrence deduplication, the key order of a Python dict. -/
def dedupKeys : List Nat → List Nat → List Nat
  | [], _ => []
  | x :: rest, seen =>
    if x ∈ seen then dedupKeys rest seen else x :: dedupKeys rest (x :: seen)

/-- The keys of `active_hosts` in insertion order. -/
def dictKeys (lines : List String) : List Nat :=
  dedupKeys ((observations lines).map (·.1)) []

/-- `active_subnets`: subnets whose recorded host list has length ≥ 2
(lines 59–61).  The script keeps them in a set; we keep the key list, whose
membership is what the set determines. -/
def active_subnets (lines : List String) : List Nat :=
  (dictKeys lines).filter (fun s => 2 ≤ (subnetHosts lines s).length)

/-- `save_to_file(output_file_subnets, active_subnets)` writes the sorted
active subnets.  (The script sorts the CIDR strings; any fixed sort key
gives the same report-identity behaviour, so we sort the numeric bases.) -/
def sortedActiveSubnets (lines : List String) : List Nat :=
  (active_subnets lines).insertionSort (· ≤ ·)

/-- The per-subnet host listing written for subnets with ≥ 2 recorded hosts
(lines 109–115), in dict insertion order. -/
def hostReport (lines : List String) : List (Nat × List String) :=
  (dictKeys lines).filterMap (fun s =>
    let hs := subnetHosts lines s
    if 2 ≤ hs.length then some (s, hs) else none)

/-! ## `run_nmap_scan` and the scheduler loop (lines 8–30, 73–122) -/

/-- Outcome of one `subprocess.run(["nmap", "-sn", subnet], ...)` call. -/
inductive ProbeOutcome
  | completed (stdout : String)
  | timedOut
  | errored (msg : String)

/-- The lines `run_nmap_scan` appends to the nmap output file on success:
`f"[+] Nmap taraması tamamlandı: {subnet}\nÇıktı:\n{result.stdout}\n"`. -/
def nmapWriteLines (subnet stdout : String) : List String :=
  ("[+] Nmap taraması tamamlandı: " ++ subnet) :: "Çıktı:" :: pySplit stdout "\n"

/-- `run_nmap_scan`: on completion returns the stdout and appends the output
block; on `TimeoutExpired` or any other exception it catches the error and
returns `""` with no file write.  The `Except` codomain records that no
exception escapes: every branch is `.ok`. -/
def run_nmap_scan (subnet : String) (outcome : ProbeOutcome) :
    Except String (String × List String) :=
  match outcome with
  | .completed out => .ok (out, nmapWriteLines subnet out)
  | .timedOut => .ok ("", [])
  | .errored _ => .ok ("", [])

/-- State of the progress file plus the audit trail of writes made to it. -/
structure SchedState where
  progressFile : Option Net
  writes : List Net

/-- `save_progress`: overwrite the progress file with the just-completed
unit (the script writes `netStr` of it; we keep the unit value, `netStr`
being injective on the units that occur). -/
def save_progress (st : SchedState) (current_network : Net) : SchedState :=
  { progressFile := some current_network, writes := st.writes ++ [current_network] }

/-- One iteration of the `as_completed` loop (lines 92–100): the future's
result or exception is consumed (`try/except` merely prints), then the
completed unit is persisted unconditionally. -/
def completionStep (st : SchedState) (c : Net × Except String String) : SchedState :=
  save_progress st c.1

/-- The whole completion loop over a completion sequence. -/
def completionLoop (st : SchedState) (cs : List (Net × Except String String)) : SchedState :=
  cs.foldl completionStep st

/-- The sequence of progress-file writes a completion sequence produces. -/
def markerWrites (cs : List (Net × Except String String)) : List Net :=
  (completionLoop ⟨none, []⟩ cs).writes

/-- `load_progress`: `None` when the file is absent, otherwise the stripped
file content. -/
def load_progress (store : Option String) : Option String :=
  match store with
  | some content => some (pyStrip content)
  | none => none

/-- Lines 78–79 of `scan_networks`: a falsy (absent or empty) marker becomes
`None`; otherwise `ipaddress.ip_network(marker)` parses it, raising
`ValueError` (`.error`) on a malformed marker. -/
def startNetworkOf (store : Option String) : Except String (Option Net) :=
  match load_progress store with
  | none => .ok none
  | some s =>
    if s = "" then .ok none
    else
      match parse_ip_network s with
      | some n => .ok (some n)
      | none => .error "ValueError"

/-- The fixtured sweep's file contribution of one unit: the block
`run_nmap_scan` appends for it (empty on timeout/error). -/
def unitLines (fixture : Net → ProbeOutcome) (u : Net) : List String :=
  match run_nmap_scan (netStr u) (fixture u) with
  | .ok (_, ls) => ls
  | .error _ => []

/-- The nmap output file (as lines) after all units completed in the given
order, each appending its block atomically. -/
def sweepFileLines (fixture : Net → ProbeOutcome) (order : List Net) : List String :=
  (order.map (unitLines fixture)).flatten

/-! ## `getserviceforall.py` -/

/-- The fixed SMB port set of `smb_scan_parallel` (line 61). -/
def smbPortList : List Nat := [139, 445]

/-- The enumeration scripts of `smb_scan_parallel` (lines 62–67). -/
def smbScriptList : List String :=
  ["smb-enum-shares", "smb-enum-users", "smb-enum-sessions", "smb-os-discovery"]

/-- Port-state oracle: what `scan_result["scan"][host]["tcp"][port]["state"]`
yields for a host/port, `none` when the key chain is absent (`KeyError`). -/
abbrev PortOracle := String → Nat → Option String

/-- Modelled from the spec: the external nmap `PortScanner.scan` call used
for script enumeration, absent from `src/`.  Per §4.4 (ServiceProber), a
scan either fails as a whole (`.error`, the `except` branch in `scan_host`)
or returns per-script outcomes — payload or a recorded per-script failure —
keyed by script name; one script's failure does not remove the others'
entries. -/
abbrev ServiceScanner :=
  String → Nat → List String → Except String (List (String × Except String String))

/-- `check_port_open`: parse the comma-separated port list (any `int()`
failure is caught by the outer `except`, which returns `[]`), and keep, in
order, the ports whose reported state is `"open"`. -/
def check_port_open (oracle : PortOracle) (host : String) (ports : String) : List Nat :=
  match (pySplit ports ",").mapM (fun t => pyInt (pyStrip t)) with
  | none => []
  | some ps => ps.filter (fun p => oracle host p == some "open")

/-- The SMB ports `scan_host` attempts enumeration on: none when no
candidate port is open, else the SMB ports among the open ones, in SMB-port
order (lines 39–44). -/
def scan_hostAttempts (oracle : PortOracle) (target ports : String)
    (smbPs : List Nat) : List Nat :=
  let open_ports := check_port_open oracle target ports
  if open_ports.isEmpty then []
  else smbPs.filter (fun p => decide (p ∈ open_ports))

/-- `scan_host`: for each attempted SMB port, run the scanner with all
scripts; a whole-call failure is swallowed (`except: print`), a successful
result is appended unmodified. -/
def scan_host (oracle : PortOracle) (svc : ServiceScanner) (target ports : String)
    (smbPs : List Nat) (scripts : List String) :
    List (List (String × Except String String)) :=
  (scan_hostAttempts oracle target ports smbPs).filterMap
    (fun p => (svc target p scripts).toOption)

/-! ## Fixtures and concrete inputs used by the theorems -/

/-- 10.0.0.0/24, the first unit of the partition. -/
def unit0 : Net := (10 * 2 ^ 24, 24)

/-- 10.0.1.0/24, the successor unit of `unit0`. -/
def unit1 : Net := (10 * 2 ^ 24 + 2 ^ 8, 24)

/-- A full completion sequence in which 10.0.1.0/24 completes before
10.0.0.0/24 and every other unit afterwards in ascending order. -/
def badCompletions : List (Net × Except String String) :=
  (unit1, .ok "") :: (unit0, .ok "") :: (twoLevelUnits.drop 2).map (fun u => (u, .ok ""))

/-- One live host observed twice: two report lines for the same IP. -/
def dupLines : List String :=
  ["Nmap scan report for 10.0.1.5", "Nmap scan report for 10.0.1.5"]

/-- Two distinct live hosts in 10.0.1.0/24. -/
def twoHostLines : List String :=
  ["Nmap scan report for 10.0.1.5", "Nmap scan report for 10.0.1.7"]

/-- Lines 78–90 composed: the units `scan_networks` submits as a function of
the progress-store content (or the raised `ValueError`). -/
def submittedFromStore (store : Option String) : Except String (List Net) :=
  (startNetworkOf store).map submittedUnits

/-- A fixture oracle: only port 445 reports open. -/
def cexOracle : PortOracle := fun _ p => if p = 445 then some "open" else none

/-- A fixture scanner: `smb-enum-users` fails, `smb-os-discovery`
succeeds. -/
def cexScanner : ServiceScanner := fun _ _ _ =>
  .ok [("smb-enum-users", .error "script failed"), ("smb-os-discovery", .ok "Windows 10")]

/-- A deterministic probe fixture: only 10.0.1.0/24 reports a host (one
line, one host); every other unit's probe times out. -/
def cexFx : Net → ProbeOutcome :=
  fun u => if u = unit1 then .completed "Nmap scan report for 10.0.1.5" else .timedOut

/-- The nmap output file produced by one full sweep under `cexFx`. -/
def run1File : List String := sweepFileLines cexFx (submittedUnits none)

/-! ## Lemmas about the partitioner -/

theorem range_mul_map {α : Type _} (m n : Nat) (f : Nat → α) :
    (List.range (m * n)).map f =
      (List.range m).flatMap (fun i => (List.range n).map (fun j => f (i * n + j))) := by
  induction m with
  | zero => simp
  | succ m ih =>
    rw [Nat.succ_mul, List.range_add, List.map_append, ih, List.range_succ,
      List.flatMap_append]
    simp [List.map_map, Function.comp_def]

theorem singleLevel_eq :
    singleLevelUnits = (List.range 65536).map (fun i => (10 * 2 ^ 24 + i * 2 ^ 8, 24)) := by
  simp only [singleLevelUnits, subnetsOf, base_network]
  norm_num

theorem twoLevel_eq_single : twoLevelUnits = singleLevelUnits := by
  have h1 : twoLevelUnits =
      (List.range 256).flatMap
        (fun i => (List.range 256).map (fun j => (10 * 2 ^ 24 + (i * 256 + j) * 2 ^ 8, 24))) := by
    simp only [twoLevelUnits, subnetsOf, base_network]
    norm_num [List.flatMap_map]
    refine List.flatMap_congr (fun i _ => ?_)
    refine List.map_congr_left (fun j _ => ?_)
    rw [Prod.mk.injEq]
    exact ⟨by ring, rfl⟩
  have h2 := (range_mul_map 256 256 (fun k => ((10 * 2 ^ 24 + k * 2 ^ 8, 24) : Net))).symm
  rw [h1, singleLevel_eq]
  norm_num at h2 ⊢
  exact h2

theorem mem_units_iff {u : Net} :
    u ∈ twoLevelUnits ↔ ∃ i, i < 65536 ∧ u = (10 * 2 ^ 24 + i * 2 ^ 8, 24) := by
  rw [twoLevel_eq_single, singleLevel_eq]
  simp only [List.mem_map, List.mem_range]
  constructor
  · rintro ⟨i, hi, rfl⟩; exact ⟨i, hi, rfl⟩
  · rintro ⟨i, hi, rfl⟩; exact ⟨i, hi, rfl⟩

theorem units_pairwise : twoLevelUnits.Pairwise (fun u v : Net => u.1 < v.1) := by
  rw [twoLevel_eq_single, singleLevel_eq]
  refine List.Pairwise.map _ (fun a b h => ?_) (List.pairwise_lt_range 65536)
  simpa using by omega

theorem units_nodup : twoLevelUnits.Nodup :=
  units_pairwise.imp (fun h heq => by simp [heq] at h)

theorem submitted_none : submittedUnits none = twoLevelUnits := by
  unfold submittedUnits twoLevelUnits
  exact List.flatMap_congr (fun s16 _ => List.filter_true _)

theorem submitted_some (s : Net) :
    submittedUnits (some s) = twoLevelUnits.filter (fun u => !(ipLtb u s)) := by
  unfold submittedUnits twoLevelUnits
  exact (List.filter_flatMap _ _ _).symm

/-! ## C1, C5, C2 -/

/-- C1: partitioning 10.0.0.0/8 into /24 scan units, as `scan_networks`
enumerates them, yields exactly 65536 units, in strictly ascending numeric
order, without duplicates, and every address of the /8 lies in exactly one
unit. -/
theorem C1_partition_exact :
    twoLevelUnits.length = 65536 ∧
    twoLevelUnits.Pairwise (fun u v : Net => u.1 < v.1) ∧
    twoLevelUnits.Nodup ∧
    ∀ a : Nat, 10 * 2 ^ 24 ≤ a → a < 11 * 2 ^ 24 →
      ∃! u : Net, u ∈ twoLevelUnits ∧ containsAddr u a := by
  refine ⟨?_, units_pairwise, units_nodup, ?_⟩
  · rw [twoLevel_eq_single, singleLevel_eq]; simp
  · intro a h1 h2
    refine ⟨(10 * 2 ^ 24 + (a - 10 * 2 ^ 24) / 2 ^ 8 * 2 ^ 8, 24), ⟨?_, ?_⟩, ?_⟩
    · refine mem_units_iff.mpr ⟨(a - 10 * 2 ^ 24) / 2 ^ 8, ?_, rfl⟩
      have := Nat.div_add_mod (a - 10 * 2 ^ 24) (2 ^ 8)
      have := Nat.mod_lt (a - 10 * 2 ^ 24) (show 0 < 2 ^ 8 by norm_num)
      omega
    · unfold containsAddr
      have := Nat.div_add_mod (a - 10 * 2 ^ 24) (2 ^ 8)
      have := Nat.mod_lt (a - 10 * 2 ^ 24) (show 0 < 2 ^ 8 by norm_num)
      simp only []
      omega
    · rintro u ⟨hu, hc⟩
      obtain ⟨i, hi, rfl⟩ := mem_units_iff.mp hu
      unfold containsAddr at hc
      have := Nat.div_add_mod (a - 10 * 2 ^ 24) (2 ^ 8)
      have := Nat.mod_lt (a - 10 * 2 ^ 24) (show 0 < 2 ^ 8 by norm_num)
      have : i = (a - 10 * 2 ^ 24) / 2 ^ 8 := by simp only [] at hc; omega
      subst this
      rfl

/-- C1 witness: the unique covering unit at the concrete address
`10.0.1.44` (= 10·2²⁴ + 300). -/
theorem C1_partition_exact_witness :
    ∃! u : Net, u ∈ twoLevelUnits ∧ containsAddr u (10 * 2 ^ 24 + 300) :=
  C1_partition_exact.2.2.2 (10 * 2 ^ 24 + 300) (by norm_num) (by norm_num)

/-- C5: the two-level enumeration (/8 → /16 → /24) of `scan_networks` is the
same sequence, in the same order, as partitioning the /8 directly into /24
units. -/
theorem C5_two_level_refines_single_level : twoLevelUnits = singleLevelUnits :=
  twoLevel_eq_single

/-- C2: resuming with a stored marker `U` submits exactly the units not
strictly below `U` (so `U` itself is re-submitted), the submitted units are
a subset of the full partition, and the skipped set is exactly the units
strictly below `U`. -/
theorem C2_resume_skips_strictly_less (U : Net) (hU : U ∈ twoLevelUnits) :
    submittedUnits (some U) ⊆ twoLevelUnits ∧
    U ∈ submittedUnits (some U) ∧
    ∀ u ∈ twoLevelUnits, (u ∈ submittedUnits (some U) ↔ ¬ ipLt u U) := by
  have hirr : ∀ u : Net, ¬ ipLt u u := by
    intro u h
    rcases h with h | ⟨_, h⟩ <;> omega
  refine ⟨?_, ?_, ?_⟩
  · rw [submitted_some]
    exact List.filter_subset' _
  · rw [submitted_some, List.mem_filter]
    refine ⟨hU, ?_⟩
    simp [ipLtb, hirr U]
  · intro u hu
    rw [submitted_some, List.mem_filter]
    simp [ipLtb, hu]

/-- C2 witness: resuming at the marker 10.0.1.0/24, the second unit of the
partition. -/
theorem C2_resume_skips_strictly_less_witness :
    submittedUnits (some (10 * 2 ^ 24 + 2 ^ 8, 24)) ⊆ twoLevelUnits ∧
    (10 * 2 ^ 24 + 2 ^ 8, 24) ∈ submittedUnits (some (10 * 2 ^ 24 + 2 ^ 8, 24)) ∧
    ∀ u ∈ twoLevelUnits,
      (u ∈ submittedUnits (some (10 * 2 ^ 24 + 2 ^ 8, 24)) ↔
        ¬ ipLt u (10 * 2 ^ 24 + 2 ^ 8, 24)) :=
  C2_resume_skips_strictly_less _ (mem_units_iff.mpr ⟨1, by norm_num, by norm_num⟩)

/-! ## Lemmas about the completion loop -/

theorem ipLe_refl (u : Net) : ipLe u u := Or.inr rfl

theorem ipLe_trans {a b c : Net} (h1 : ipLe a b) (h2 : ipLe b c) : ipLe a c := by
  obtain ⟨a1, a2⟩ := a
  obtain ⟨b1, b2⟩ := b
  obtain ⟨c1, c2⟩ := c
  unfold ipLe ipLt at *
  rcases h1 with h1 | h1 <;> rcases h2 with h2 | h2
  all_goals simp_all
  all_goals omega

theorem completionLoop_writes (st : SchedState) (cs : List (Net × Except String String)) :
    (completionLoop st cs).writes = st.writes ++ cs.map (·.1) := by
  induction cs generalizing st with
  | nil => simp [completionLoop]
  | cons c t ih =>
    simp [completionLoop, completionStep, save_progress] at ih ⊢
    rw [ih]
    simp

theorem markerWrites_eq (cs : List (Net × Except String String)) :
    markerWrites cs = cs.map (·.1) := by
  simp [markerWrites, completionLoop_writes]

theorem sorted_ipLe_getLastD {l : List Net} (hs : l.Sorted ipLe) :
    ∀ u ∈ l, ∀ d : Net, ipLe u (l.getLastD d) := by
  induction l with
  | nil => simp
  | cons a t ih =>
    rw [List.sorted_cons] at hs
    intro u hu d
    rw [List.getLastD_cons]
    rcases List.mem_cons.mp hu with rfl | hu'
    · cases t with
      | nil => exact ipLe_refl u
      | cons b t' =>
        exact ipLe_trans (hs.1 b (List.mem_cons_self b t'))
          (ih hs.2 b (List.mem_cons_self b t') u)
    · exact ih hs.2 u hu' a

theorem units_cons2 : twoLevelUnits = unit0 :: unit1 :: twoLevelUnits.drop 2 := by
  conv_lhs => rw [← List.take_append_drop 2 twoLevelUnits]
  show _ = [unit0, unit1] ++ twoLevelUnits.drop 2
  congr 1

/-! ## C3 -/

theorem badCompletions_units : badCompletions.map (·.1) = unit1 :: unit0 :: twoLevelUnits.drop 2 := by
  simp [badCompletions, List.map_map, Function.comp_def]

/-- C3 counterexample: a completion order of the full partition (10.0.1.0/24
first, then 10.0.0.0/24, then the rest) under which the persisted marker
sequence of `scan_networks` is **not** monotonically non-decreasing: the
second `save_progress` write regresses the marker from 10.0.1.0/24 back to
10.0.0.0/24, because the loop writes each completed unit as-is instead of
taking a maximum. -/
theorem C3_counterexample_marker_regresses :
    (badCompletions.map (·.1)).Perm twoLevelUnits ∧
    ¬ (markerWrites badCompletions).Chain' ipLe := by
  constructor
  · rw [badCompletions_units]
    conv_rhs => rw [units_cons2]
    exact List.Perm.swap _ _ _
  · rw [markerWrites_eq, badCompletions_units]
    intro h
    rw [List.chain'_cons] at h
    exact absurd h.1 (by decide)

/-- C3 amended: each `save_progress` write records exactly the
just-completed unit, so the persisted marker sequence equals the completion
sequence; it is monotonically non-decreasing — with the final marker ≥
every completed unit — when the completion order itself is non-decreasing,
but not for every permutation of completions (see the counterexample). -/
theorem C3_amended_marker_follows_completions (cs : List (Net × Except String String))
    (hsorted : (cs.map (·.1)).Sorted ipLe) :
    markerWrites cs = cs.map (·.1) ∧
    (markerWrites cs).Chain' ipLe ∧
    ∀ u ∈ cs.map (·.1), ipLe u ((markerWrites cs).getLastD u) := by
  refine ⟨markerWrites_eq cs, ?_, ?_⟩
  · rw [markerWrites_eq]
    exact hsorted.chain'
  · intro u hu
    rw [markerWrites_eq]
    exact sorted_ipLe_getLastD hsorted u hu u

/-- C3 amended witness: the ascending two-unit completion sequence. -/
theorem C3_amended_marker_follows_completions_witness :
    markerWrites [(unit0, .ok ""), (unit1, .ok "")] =
        [(unit0, (.ok "" : Except String String)), (unit1, .ok "")].map (·.1) ∧
    (markerWrites [(unit0, .ok ""), (unit1, .ok "")]).Chain' ipLe ∧
    ∀ u ∈ [(unit0, (.ok "" : Except String String)), (unit1, .ok "")].map (·.1),
      ipLe u ((markerWrites [(unit0, .ok ""), (unit1, .ok "")]).getLastD u) :=
  C3_amended_marker_follows_completions [(unit0, .ok ""), (unit1, .ok "")] (by decide)

/-! ## Lemmas about the aggregator -/

theorem mem_dedupKeys {l : List Nat} {seen : List Nat} {a : Nat} :
    a ∈ dedupKeys l seen ↔ a ∈ l ∧ a ∉ seen := by
  induction l generalizing seen with
  | nil => simp [dedupKeys]
  | cons x t ih =>
    simp only [dedupKeys]
    by_cases hx : x ∈ seen
    · rw [if_pos hx, ih]
      simp only [List.mem_cons]
      constructor
      · rintro ⟨h1, h2⟩
        exact ⟨Or.inr h1, h2⟩
      · rintro ⟨h1 | h1, h2⟩
        · subst h1; exact absurd hx h2
        · exact ⟨h1, h2⟩
    · rw [if_neg hx]
      simp only [List.mem_cons, ih]
      constructor
      · rintro (rfl | ⟨h1, h2⟩)
        · exact ⟨Or.inl rfl, hx⟩
        · exact ⟨Or.inr h1, fun hc => h2 (Or.inr hc)⟩
      · rintro ⟨rfl | h1, h2⟩
        · exact Or.inl rfl
        · by_cases hax : a = x
          · exact Or.inl hax
          · refine Or.inr ⟨h1, fun hc => ?_⟩
            rcases hc with rfl | hc
            · exact hax rfl
            · exact h2 hc

theorem dedupKeys_nodup (l seen : List Nat) : (dedupKeys l seen).Nodup := by
  induction l generalizing seen with
  | nil => simp [dedupKeys]
  | cons x t ih =>
    simp only [dedupKeys]
    by_cases hx : x ∈ seen
    · rw [if_pos hx]; exact ih seen
    · rw [if_neg hx]
      refine List.nodup_cons.mpr ⟨fun hmem => ?_, ih (x :: seen)⟩
      exact (mem_dedupKeys.mp hmem).2 (List.mem_cons_self x seen)

theorem mem_dictKeys {lines : List String} {s : Nat} :
    s ∈ dictKeys lines ↔ s ∈ (observations lines).map (·.1) := by
  unfold dictKeys
  rw [mem_dedupKeys]
  simp

theorem mem_active_subnets {lines : List String} {s : Nat} :
    s ∈ active_subnets lines ↔ 2 ≤ (subnetHosts lines s).length := by
  unfold active_subnets
  rw [List.mem_filter]
  constructor
  · rintro ⟨-, h⟩
    simpa using h
  · intro h
    refine ⟨?_, by simpa using h⟩
    have hne : subnetHosts lines s ≠ [] := by
      intro hnil
      rw [hnil] at h
      simp at h
    obtain ⟨x, hx⟩ := List.exists_mem_of_ne_nil _ hne
    rw [mem_dictKeys]
    unfold subnetHosts at hx
    obtain ⟨o, ho, hoeq⟩ := List.mem_filterMap.mp hx
    by_cases hos : o.1 = s
    · exact List.mem_map.mpr ⟨o, ho, hos⟩
    · rw [if_neg hos] at hoeq
      exact absurd hoeq (by simp)

theorem active_subnets_nodup (lines : List String) : (active_subnets lines).Nodup :=
  (dedupKeys_nodup _ _).filter _

/-! ## C4 -/

/-- C4 counterexample: an nmap output in which subnet 10.0.1.0/24
(numerically 167772416) has exactly **one** distinct live host, observed
twice, yet `parse_nmap_output` marks the subnet active — the threshold
counts appended observations, not distinct hosts, so the claim's "a subnet
whose observations all resolve to exactly 1 distinct host is never in the
active-subnet list" is false. -/
theorem C4_counterexample_one_host_twice_is_active :
    167772416 ∈ active_subnets dupLines ∧
    ((subnetHosts dupLines 167772416).dedup).length = 1 := by decide

/-- C4 amended: a /24 subnet is marked active iff at least 2 host
observations (not necessarily distinct) were recorded for it; a subnet with
≥ 2 distinct observed hosts is always active, but a single host observed
twice is also marked active. -/
theorem C4_amended_threshold_counts_observations (lines : List String) (s : Nat) :
    (s ∈ active_subnets lines ↔ 2 ≤ (subnetHosts lines s).length) ∧
    (2 ≤ ((subnetHosts lines s).dedup).length → s ∈ active_subnets lines) := by
  refine ⟨mem_active_subnets, fun h => mem_active_subnets.mpr ?_⟩
  exact le_trans h (List.dedup_sublist _).length_le

/-- C4 amended witness: two distinct hosts make 10.0.1.0/24 active. -/
theorem C4_amended_threshold_counts_observations_witness :
    167772416 ∈ active_subnets twoHostLines :=
  (C4_amended_threshold_counts_observations twoHostLines 167772416).2 (by decide)

/-! ## C6 -/

/-- C6: when a unit's probe times out, `run_nmap_scan` catches the
`TimeoutExpired` and returns the failed-with-no-result outcome `""` with no
output-file write (no exception escapes: the result is `.ok`); the unit was
submitted exactly once (never retried); and the completion loop still
performs a progress write for it — indeed it writes a checkpoint for every
completed unit, so the sweep never stalls on a timeout. -/
theorem C6_timeout_still_checkpoints (u : Net) (fixture : Net → ProbeOutcome)
    (cs : List (Net × Except String String))
    (hfix : fixture u = .timedOut)
    (hcs : (cs.map (·.1)).Perm (submittedUnits none))
    (hu : u ∈ twoLevelUnits) :
    run_nmap_scan (netStr u) (fixture u) = .ok ("", []) ∧
    (submittedUnits none).Nodup ∧
    u ∈ submittedUnits none ∧
    u ∈ markerWrites cs ∧
    markerWrites cs = cs.map (·.1) := by
  refine ⟨by rw [hfix]; rfl, ?_, ?_, ?_, markerWrites_eq cs⟩
  · rw [submitted_none]
    exact units_nodup
  · rw [submitted_none]
    exact hu
  · rw [markerWrites_eq]
    exact hcs.mem_iff.mpr (by rw [submitted_none]; exact hu)

/-- C6 witness: every probe times out and the full partition completes in
submission order; the first unit still gets its checkpoint. -/
theorem C6_timeout_still_checkpoints_witness :
    run_nmap_scan (netStr unit0) ((fun _ : Net => ProbeOutcome.timedOut) unit0) = .ok ("", []) ∧
    (submittedUnits none).Nodup ∧
    unit0 ∈ submittedUnits none ∧
    unit0 ∈ markerWrites ((submittedUnits none).map (fun v => (v, .ok ""))) ∧
    markerWrites ((submittedUnits none).map (fun v => (v, .ok ""))) =
      ((submittedUnits none).map (fun v => (v, (.ok "" : Except String String)))).map (·.1) :=
  C6_timeout_still_checkpoints unit0 (fun _ => .timedOut) _ rfl
    (by simp [List.map_map, Function.comp_def])
    (mem_units_iff.mpr ⟨0, by norm_num, by norm_num [unit0]⟩)

/-! ## C7 -/

/-- C7 counterexample: with a malformed (non-CIDR) marker in the progress
file, `ipaddress.ip_network` raises `ValueError` out of `scan_networks`
(line 79 has no exception handler), so the sweep does **not** start from the
beginning of the partition — the claim's "malformed marker is treated as no
marker" is false. -/
theorem C7_counterexample_malformed_marker_raises :
    startNetworkOf (some "garbage") = .error "ValueError" ∧
    submittedFromStore (some "garbage") ≠ .ok twoLevelUnits := by
  constructor
  · decide
  · intro h
    have : submittedFromStore (some "garbage") = .error "ValueError" := by decide
    rw [this] at h
    exact absurd h (by simp)

/-- C7 amended: an absent progress file, and an empty or whitespace-only
one, are treated as "no marker" and the full partition is submitted; but a
malformed non-CIDR marker raises `ValueError` out of `scan_networks`
instead of being treated as absent. -/
theorem C7_amended_absent_or_empty_tolerated :
    submittedFromStore none = .ok twoLevelUnits ∧
    (∀ s, pyStrip s = "" → submittedFromStore (some s) = .ok twoLevelUnits) ∧
    (∀ s, pyStrip s ≠ "" → parse_ip_network (pyStrip s) = none →
      submittedFromStore (some s) = .error "ValueError") := by
  refine ⟨?_, ?_, ?_⟩
  · simp [submittedFromStore, startNetworkOf, load_progress, Except.map, submitted_none]
  · intro s h
    simp [submittedFromStore, startNetworkOf, load_progress, h, Except.map, submitted_none]
  · intro s h1 h2
    simp [submittedFromStore, startNetworkOf, load_progress, h1, h2, Except.map]

/-- C7 amended witness: a whitespace-only marker and a malformed marker. -/
theorem C7_amended_absent_or_empty_tolerated_witness :
    submittedFromStore (some " \n ") = .ok twoLevelUnits ∧
    submittedFromStore (some "garbage") = .error "ValueError" :=
  ⟨C7_amended_absent_or_empty_tolerated.2.1 " \n " (by decide),
    C7_amended_absent_or_empty_tolerated.2.2 "garbage" (by decide) (by decide)⟩

/-! ## C8 -/

/-- C8: whenever the scanner's result for an attempted SMB port records a
failure for one script alongside a success payload for another, `scan_host`
reports both — it appends the scanner result unmodified, so a single
script's failure never suppresses the other scripts' results for the host. -/
theorem C8_partial_script_failure_reported (oracle : PortOracle) (svc : ServiceScanner)
    (target ports : String) (p : Nat) (res : List (String × Except String String))
    (okScript failScript payload msg : String)
    (hp : p ∈ scan_hostAttempts oracle target ports smbPortList)
    (hsvc : svc target p smbScriptList = .ok res)
    (hfail : (failScript, .error msg) ∈ res)
    (hok : (okScript, .ok payload) ∈ res) :
    ∃ r ∈ scan_host oracle svc target ports smbPortList smbScriptList,
      (okScript, Except.ok payload) ∈ r ∧ (failScript, Except.error msg) ∈ r := by
  refine ⟨res, ?_, hok, hfail⟩
  unfold scan_host
  exact List.mem_filterMap.mpr ⟨p, hp, by rw [hsvc]; rfl⟩

/-- C8 witness: the host-service report of the fixtured host carries the
os-discovery payload together with the enum-users failure marker. -/
theorem C8_partial_script_failure_reported_witness :
    ∃ r ∈ scan_host cexOracle cexScanner "10.0.1.5" "445" smbPortList smbScriptList,
      ("smb-os-discovery", Except.ok "Windows 10") ∈ r ∧
      ("smb-enum-users", Except.error "script failed") ∈ r :=
  C8_partial_script_failure_reported cexOracle cexScanner "10.0.1.5" "445" 445 _
    "smb-os-discovery" "smb-enum-users" "Windows 10" "script failed"
    (by decide) rfl (by decide) (by decide)

/-! ## C10 -/

/-- C10: with a parseable candidate port list, SMB enumeration is attempted
exactly on the ports that are simultaneously in the fixed SMB port set, in
the candidate list, and reported open; and when no candidate port is open,
`scan_host` returns the empty result list. -/
theorem C10_smb_port_gating (oracle : PortOracle) (svc : ServiceScanner)
    (target ports : String) (ps : List Nat)
    (hparse : (pySplit ports ",").mapM (fun t => pyInt (pyStrip t)) = some ps) :
    (∀ p : Nat, p ∈ scan_hostAttempts oracle target ports smbPortList ↔
        p ∈ smbPortList ∧ p ∈ ps ∧ oracle target p = some "open") ∧
    (check_port_open oracle target ports = [] →
      scan_host oracle svc target ports smbPortList smbScriptList = []) := by
  have hopen : check_port_open oracle target ports =
      ps.filter (fun p => oracle target p == some "open") := by
    unfold check_port_open
    rw [hparse]
  constructor
  · intro p
    unfold scan_hostAttempts
    rw [hopen]
    by_cases hemp : ps.filter (fun q => oracle target q == some "open") = []
    · rw [hemp]
      simp only [List.isEmpty_nil, if_true]
      constructor
      · intro hmem
        exact absurd hmem (List.not_mem_nil p)
      · rintro ⟨-, hps, hor⟩
        have hmem : p ∈ ps.filter (fun q => oracle target q == some "open") :=
          List.mem_filter.mpr ⟨hps, by simp [hor]⟩
        rw [hemp] at hmem
        exact absurd hmem (List.not_mem_nil p)
    · rw [if_neg (by simpa using hemp)]
      simp [List.mem_filter]
  · intro h
    unfold scan_host scan_hostAttempts
    rw [h]
    simp

/-- C10 witness: candidate list "80,445" with only 445 open attempts exactly
port 445; a host with nothing open yields the empty report. -/
theorem C10_smb_port_gating_witness :
    (∀ p : Nat, p ∈ scan_hostAttempts cexOracle "10.0.1.5" "80,445" smbPortList ↔
        p ∈ smbPortList ∧ p ∈ [80, 445] ∧ cexOracle "10.0.1.5" p = some "open") ∧
    (check_port_open cexOracle "10.0.1.5" "80,445" = [] →
      scan_host cexOracle cexScanner "10.0.1.5" "80,445" smbPortList smbScriptList = []) :=
  C10_smb_port_gating cexOracle cexScanner "10.0.1.5" "80,445" [80, 445] (by decide)

/-! ## C9 -/

theorem sweepFile_perm (fx : Net → ProbeOutcome) {o1 o2 : List Net} (h : o1.Perm o2) :
    (sweepFileLines fx o1).Perm (sweepFileLines fx o2) :=
  (h.map (unitLines fx)).flatten

theorem subnetHosts_perm {l1 l2 : List String} (h : l1.Perm l2) (s : Nat) :
    (subnetHosts l1 s).Perm (subnetHosts l2 s) :=
  List.Perm.filterMap _ (List.Perm.filterMap _ h)

theorem active_subnets_perm {l1 l2 : List String} (h : l1.Perm l2) :
    (active_subnets l1).Perm (active_subnets l2) := by
  rw [List.perm_ext_iff_of_nodup (active_subnets_nodup l1) (active_subnets_nodup l2)]
  intro s
  rw [mem_active_subnets, mem_active_subnets, (subnetHosts_perm h s).length_eq]

theorem sortedActive_eq {l1 l2 : List String} (h : l1.Perm l2) :
    sortedActiveSubnets l1 = sortedActiveSubnets l2 := by
  unfold sortedActiveSubnets
  refine List.eq_of_perm_of_sorted ?_ (List.sorted_insertionSort _ _)
    (List.sorted_insertionSort _ _)
  exact ((List.perm_insertionSort _ _).trans (active_subnets_perm h)).trans
    (List.perm_insertionSort _ _).symm

theorem flatten_map_eq_of_single {α β : Type _} (f : α → List β) (l : List α) (a : α)
    (h1 : ∀ x ∈ l, x ≠ a → f x = []) (hmem : a ∈ l) (hnodup : l.Nodup) :
    (l.map f).flatten = f a := by
  induction l with
  | nil => simp at hmem
  | cons x t ih =>
    rw [List.map_cons, List.flatten_cons]
    rcases List.mem_cons.mp hmem with rfl | hmem'
    · have hall : ∀ y ∈ t, f y = [] := by
        intro y hy
        refine h1 y (List.mem_cons.mpr (Or.inr hy)) ?_
        intro heq
        subst heq
        exact (List.nodup_cons.mp hnodup).1 hy
      have hnil : (t.map f).flatten = [] := by
        rw [List.flatten_eq_nil_iff]
        intro ll hll
        obtain ⟨y, hy, rfl⟩ := List.mem_map.mp hll
        exact hall y hy
      rw [hnil, List.append_nil]
    · have hx : f x = [] := by
        refine h1 x (List.mem_cons_self x t) ?_
        intro heq
        subst heq
        exact (List.nodup_cons.mp hnodup).1 hmem'
      rw [hx, List.nil_append]
      exact ih (fun y hy hne => h1 y (List.mem_cons.mpr (Or.inr hy)) hne) hmem'
        (List.nodup_cons.mp hnodup).2

theorem run1File_eq :
    run1File =
      ["[+] Nmap taraması tamamlandı: 10.0.1.0/24", "Çıktı:",
        "Nmap scan report for 10.0.1.5"] := by
  unfold run1File sweepFileLines
  rw [flatten_map_eq_of_single (unitLines cexFx) _ unit1 ?h1 ?hmem ?hnodup]
  · decide
  case h1 =>
    intro x hx hne
    simp [unitLines, cexFx, hne, run_nmap_scan]
  case hmem =>
    rw [submitted_none]
    exact mem_units_iff.mpr ⟨1, by norm_num, by norm_num [unit1]⟩
  case hnodup =>
    rw [submitted_none]
    exact units_nodup

/-- C9 counterexample: `run_nmap_scan` appends to the nmap output file
(mode `"a"`) and `parse_nmap_output` reads the whole file, so a second full
sweep over the same files parses both runs' output.  Under the fixture
`cexFx`, run 1 reports no active subnet, while run 2 — whose file holds
both runs' observations — reports 10.0.1.0/24 active (its single host now
counts twice): the two runs' aggregated reports are not identical. -/
theorem C9_counterexample_second_run_differs :
    sortedActiveSubnets run1File = [] ∧
    sortedActiveSubnets (run1File ++ run1File) = [167772416] ∧
    sortedActiveSubnets run1File ≠ sortedActiveSubnets (run1File ++ run1File) := by
  rw [run1File_eq]
  exact ⟨by decide, by decide, by decide⟩

/-- C9 amended: with a fresh (empty) nmap output file for each run, the
sweep is deterministic up to the thread pool's completion order: the sorted
active-subnet list is identical across runs for **any** two completion
orders of the same units, each subnet's recorded host group is the same up
to ordering, and the full host-membership report is identical whenever the
two runs complete units in the same order. -/
theorem C9_amended_reports_deterministic (fx : Net → ProbeOutcome) (o1 o2 : List Net)
    (h : o1.Perm o2) :
    sortedActiveSubnets (sweepFileLines fx o1) = sortedActiveSubnets (sweepFileLines fx o2) ∧
    (∀ s : Nat,
      (subnetHosts (sweepFileLines fx o1) s).Perm (subnetHosts (sweepFileLines fx o2) s)) ∧
    (o1 = o2 → hostReport (sweepFileLines fx o1) = hostReport (sweepFileLines fx o2)) :=
  ⟨sortedActive_eq (sweepFile_perm fx h),
    fun s => subnetHosts_perm (sweepFile_perm fx h) s,
    fun he => by rw [he]⟩

/-- C9 amended witness: the two-unit completion orders swapped. -/
theorem C9_amended_reports_deterministic_witness :
    sortedActiveSubnets (sweepFileLines cexFx [unit0, unit1]) =
        sortedActiveSubnets (sweepFileLines cexFx [unit1, unit0]) ∧
    (∀ s : Nat,
      (subnetHosts (sweepFileLines cexFx [unit0, unit1]) s).Perm
        (subnetHosts (sweepFileLines cexFx [unit1, unit0]) s)) ∧
    ([unit0, unit1] = [unit1, unit0] →
      hostReport (sweepFileLines cexFx [unit0, unit1]) =
        hostReport (sweepFileLines cexFx [unit1, unit0])) :=
  C9_amended_reports_deterministic cexFx [unit0, unit1] [unit1, unit0]
    (List.Perm.swap _ _ _)

end Kek
